import Mathlib

/-!
Verification of the moss asset-ledger chaincode
(`asset-transfer-basic/chaincode-typescript`): a shallow embedding of the
identifier registry and metadata resolver (`utils.ts`), the asset record with
its validating setters (`asset.ts`), the deterministic serializer used by
`putAsset`, and the contract operations (`assetTransfer.ts`), together with
theorems settling the specification's claims about them.

Conventions of the embedding:
* TypeScript exceptions become `Except String` results.  A mutating method
  that can throw becomes a function returning `Except String Unit × α`: the
  second component is the object (respectively, the ledger) after the call,
  which on the throwing paths is the unchanged input, exactly as in the
  source, where every `throw` happens before the corresponding assignment
  or `putState`.
* The Fabric state store is a list of key/value entries in scan order;
  `getState` yields `""` for an absent key (Fabric returns an empty byte
  array), matching the `length === 0` checks in the source.
* `JSON.parse` of a stored record is modelled by `deserializeAsset`, a parser
  for the canonical flat wire format that `putAsset` produces (an object whose
  members are string-valued, in sorted key order); bytes that this parser
  rejects model stored values on which `JSON.parse`/`Object.assign` cannot
  reproduce an asset record.
-/

namespace Moss

/-! ### JavaScript string trimming (`String.prototype.trim`) -/

/-- Whitespace for the purposes of `trim` (the JS WhiteSpace and
LineTerminator characters that occur in practice). -/
def jsWhite (c : Char) : Bool :=
  c = ' ' || c = '\t' || c = '\n' || c = '\r' || c = '\x0b' || c = '\x0c' ||
  c = '\u00A0' || c = '\u2028' || c = '\u2029' || c = '\uFEFF'

/-- Trim on character lists: drop whitespace from both ends. -/
def jsTrimL (l : List Char) : List Char :=
  ((l.dropWhile jsWhite).reverse.dropWhile jsWhite).reverse

/-- Model of `s.trim()`. -/
def jsTrim (s : String) : String :=
  ⟨jsTrimL s.data⟩

/-! ### Identifier registry (`utils.ts`, `IDENTIFIER_TYPES`/`parseIdentifier`) -/

/-- The closed set `IDENTIFIER_TYPES = ["ISBN","OCLC","LCCN","OLID","DOI"]`. -/
inductive IdentifierType where
  | ISBN | OCLC | LCCN | OLID | DOI
deriving Repr, DecidableEq

/-- The string name of an identifier type. -/
def typeName : IdentifierType → String
  | .ISBN => "ISBN"
  | .OCLC => "OCLC"
  | .LCCN => "LCCN"
  | .OLID => "OLID"
  | .DOI => "DOI"

/-- The order in which the regex alternation `(ISBN|OCLC|LCCN|OLID|DOI)` tries
the types. -/
def identifierTypesList : List IdentifierType :=
  [.ISBN, .OCLC, .LCCN, .OLID, .DOI]

/-- `ParsedIdentifier` from `utils.ts`. -/
structure ParsedIdentifier where
  type : IdentifierType
  value : String
deriving Repr, DecidableEq

/-- Strip a literal character-list from the front of `l`, yielding the rest. -/
def dropLit : List Char → List Char → Option (List Char)
  | [], l => some l
  | _ :: _, [] => none
  | p :: ps, c :: cs => if p = c then dropLit ps cs else none

/-- A LineTerminator, which `.` in a JS regex (no `s` flag) does not match. -/
def lineTerm (c : Char) : Bool :=
  c = '\n' || c = '\r' || c = '\u2028' || c = '\u2029'

/-- Try to match `TYPE_` at the front of `l` for one candidate type. -/
def tryType (t : IdentifierType) (l : List Char) :
    Option (IdentifierType × List Char) :=
  (dropLit ((typeName t).data ++ ['_']) l).map (fun rest => (t, rest))

/-- Left-to-right alternation over the five types, as the regex
`^(ISBN|OCLC|LCCN|OLID|DOI)_(.+)$` tries them. -/
def matchTypeUnderscore (l : List Char) : Option (IdentifierType × List Char) :=
  tryType .ISBN l <|> tryType .OCLC l <|> tryType .LCCN l <|>
    tryType .OLID l <|> tryType .DOI l

/-- `parseIdentifier` from `utils.ts`: trim, match
`^(ISBN|OCLC|LCCN|OLID|DOI)_(.+)$` (where `.` excludes line terminators),
trim the captured value, reject if it is empty. -/
def parseIdentifier (identifier : String) : Except String ParsedIdentifier :=
  if jsTrim identifier = "" then
    .error "identifier must be a non-empty string"
  else
    match matchTypeUnderscore (jsTrim identifier).data with
    | none => .error ("Invalid or unsupported identifier: " ++ identifier)
    | some (t, rest) =>
      if rest ≠ [] ∧ rest.all (fun c => !lineTerm c) then
        let value := jsTrimL rest
        if value = [] then
          .error ("Identifier value is empty for: " ++ identifier)
        else
          .ok ⟨t, ⟨value⟩⟩
      else
        .error ("Invalid or unsupported identifier: " ++ identifier)

/-- `parsedIdToString` from `utils.ts`. -/
def parsedIdToString (p : ParsedIdentifier) : String :=
  typeName p.type ++ "_" ++ p.value

/-! ### `encodeURIComponent` -/

/-- The characters `encodeURIComponent` leaves unescaped. -/
def uriUnreserved (c : Char) : Bool :=
  c.isAlpha || c.isDigit ||
  c = '-' || c = '_' || c = '.' || c = '!' || c = '~' || c = '*' ||
  c = '\'' || c = '(' || c = ')'

/-- Uppercase hexadecimal digit for a value below 16. -/
def hexU (n : Nat) : Char :=
  "0123456789ABCDEF".data.getD n '0'

/-- Percent-escape of one byte. -/
def pctByte (b : Nat) : List Char :=
  ['%', hexU (b / 16), hexU (b % 16)]

/-- UTF-8 bytes of a character. -/
def utf8Bytes (c : Char) : List Nat :=
  let n := c.toNat
  if n < 0x80 then [n]
  else if n < 0x800 then [0xC0 + n / 64, 0x80 + n % 64]
  else if n < 0x10000 then
    [0xE0 + n / 4096, 0x80 + n / 64 % 64, 0x80 + n % 64]
  else
    [0xF0 + n / 262144, 0x80 + n / 4096 % 64, 0x80 + n / 64 % 64, 0x80 + n % 64]

/-- Model of `encodeURIComponent`. -/
def encodeURIComponent (s : String) : String :=
  ⟨s.data.flatMap fun c =>
    if uriUnreserved c then [c] else (utf8Bytes c).flatMap pctByte⟩

/-! ### Metadata resolver (`utils.ts`, `metadataHandlers`/`metadataHandler`) -/

/-- The `metadataHandlers` record: one URL template per identifier type. -/
def metadataHandlers : IdentifierType → String → String
  | .DOI, value => "https://api.crossref.org/works/" ++ encodeURIComponent value
  | .ISBN, value =>
    "https://openlibrary.org/api/books?bibkeys=ISBN:" ++ value ++ "&format=json"
  | .OCLC, value =>
    "https://openlibrary.org/api/books?bibkeys=OCLC:" ++ value ++ "&format=json"
  | .LCCN, value =>
    "https://openlibrary.org/api/books?bibkeys=LCCN:" ++ value ++ "&format=json"
  | .OLID, value =>
    "https://openlibrary.org/api/books?bibkeys=OLID:" ++ value ++ "&format=json"

/-- `metadataHandler` on a string input: parse, then dispatch. -/
def metadataHandler (input : String) : Except String String :=
  (parseIdentifier input).map fun p => metadataHandlers p.type p.value

/-! ### Statuses and other defaults (`utils.ts`) -/

/-- `DEFAULT_OWNER` from `utils.ts`. -/
def DEFAULT_OWNER : String := "Zachary Rosario"

/-- `ACCEPTED_STATUSES` from `utils.ts`. -/
def ACCEPTED_STATUSES : List String := ["open", "loaned", "locked"]

/-- `isAcceptedStatus` from `utils.ts`. -/
def isAcceptedStatus (s : String) : Bool :=
  ACCEPTED_STATUSES.contains s

/-! ### ISO 8601 validation (`utils.ts`, `validateISO`)

The regex `^\d{4}-\d{2}-\d{2}(?:[Tt ]\d{2}:\d{2}:\d{2}(?:\.\d+)?(?:Z|[+-]\d{2}:\d{2})?)?$`
followed by `!Number.isNaN(new Date(s).getTime())`; the `Date` validity check is
modelled as the calendar bounds the engine enforces on date-time strings. -/

/-- Read exactly `n` decimal digits onto an accumulator. -/
def readDigitsAux : Nat → Nat → List Char → Option (Nat × List Char)
  | 0, acc, l => some (acc, l)
  | n + 1, acc, c :: l =>
    if c.isDigit then readDigitsAux n (acc * 10 + (c.toNat - 48)) l else none
  | _ + 1, _, [] => none

/-- Read exactly `n` decimal digits, returning their value and the rest. -/
def readDigits (n : Nat) (l : List Char) : Option (Nat × List Char) :=
  readDigitsAux n 0 l

/-- Days in a month of the proleptic Gregorian calendar. -/
def daysInMonth (y m : Nat) : Nat :=
  if m = 2 then
    if y % 4 = 0 && (y % 100 ≠ 0 || y % 400 = 0) then 29 else 28
  else if m = 4 || m = 6 || m = 9 || m = 11 then 30
  else 31

/-- The optional fractional-seconds part `(?:\.\d+)?`. -/
def isoFrac : List Char → Option (List Char)
  | '.' :: c :: l =>
    if c.isDigit then some (l.dropWhile Char.isDigit) else none
  | l => some l

/-- The optional timezone part `(?:Z|[+-]\d{2}:\d{2})?`, with offset bounds. -/
def isoZone : List Char → Bool
  | [] => true
  | ['Z'] => true
  | c :: l =>
    (c = '+' || c = '-') &&
      match readDigits 2 l with
      | some (oh, ':' :: l2) =>
        (match readDigits 2 l2 with
         | some (om, []) => oh ≤ 23 && om ≤ 59
         | _ => false)
      | _ => false

/-- The optional time-of-day part `(?:[Tt ]\d{2}:\d{2}:\d{2}...)?`. -/
def isoTime : List Char → Bool
  | [] => true
  | c :: l =>
    (c = 'T' || c = 't' || c = ' ') &&
      match readDigits 2 l with
      | some (hh, ':' :: l2) =>
        (match readDigits 2 l2 with
         | some (mi, ':' :: l3) =>
           (match readDigits 2 l3 with
            | some (ss, l4) =>
              hh ≤ 23 && mi ≤ 59 && ss ≤ 59 &&
                (match isoFrac l4 with
                 | some l5 => isoZone l5
                 | none => false)
            | none => false)
         | _ => false)
      | _ => false

/-- Structural match plus calendar validity for a trimmed candidate string. -/
def validISOCore (l : List Char) : Bool :=
  match readDigits 4 l with
  | some (y, '-' :: l1) =>
    (match readDigits 2 l1 with
     | some (m, '-' :: l2) =>
       (match readDigits 2 l2 with
        | some (d, l3) =>
          1 ≤ m && m ≤ 12 && 1 ≤ d && d ≤ daysInMonth y m && isoTime l3
        | none => false)
     | _ => false)
  | _ => false

/-- `validateISO` from `utils.ts`. -/
def validateISO (value : String) : Bool :=
  let s := jsTrim value
  s ≠ "" && validISOCore s.data

/-! ### Accepted file extensions (`utils.ts`, `isAcceptedFileExtension`) -/

/-- `ACCEPTED_FILE_EXTENSIONS` from `utils.ts`. -/
def ACCEPTED_FILE_EXTENSIONS : List String :=
  ["pdf", "epub", "txt", "json", "jpg", "jpeg", "png"]

/-- Lowercase a string character-wise (`String.prototype.toLowerCase` on the
ASCII range used here). -/
def jsToLower (s : String) : String :=
  ⟨s.data.map Char.toLower⟩

/-- Split a character list at every occurrence of `sep`. -/
def splitOnCh (sep : Char) (l : List Char) : List (List Char) :=
  match l with
  | [] => [[]]
  | c :: rest =>
    let r := splitOnCh sep rest
    if c = sep then [] :: r
    else match r with
      | [] => [[c]]
      | h :: t => (c :: h) :: t

/-- `s.split("/").pop() || ""`, then cut at `";"` and `"+"`: the MIME subtype. -/
def mimeSubtype (l : List Char) : List Char :=
  let seg := (splitOnCh '/' l).getLastD []
  (seg.takeWhile (fun c => c ≠ ';')).takeWhile (fun c => c ≠ '+')

/-- The first match of `\.([a-z0-9]+)(?:$|\?)`: scan for a dot whose maximal
following lowercase-alphanumeric run is non-empty and ends at the end of the
string or at a `?`. -/
def extMatch : List Char → Option (List Char)
  | [] => none
  | '.' :: rest =>
    let run := rest.takeWhile (fun c => c.isLower || c.isDigit)
    let after := rest.dropWhile (fun c => c.isLower || c.isDigit)
    if run ≠ [] ∧ (after = [] ∨ after.head? = some '?') then some run
    else extMatch rest
  | _ :: rest => extMatch rest

/-- `isAcceptedFileExtension` from `utils.ts`. -/
def isAcceptedFileExtension (fileNameOrMime : String) : Bool :=
  if jsTrim fileNameOrMime = "" then false
  else
    let s := (jsToLower (jsTrim fileNameOrMime)).data
    if s.contains '/' &&
        ACCEPTED_FILE_EXTENSIONS.contains ⟨mimeSubtype s⟩ then true
    else
      match extMatch s with
      | none => false
      | some run => ACCEPTED_FILE_EXTENSIONS.contains ⟨run⟩

/-! ### Deterministic serializer
(`json-stringify-deterministic` composed with `sort-keys-recursive`, as used by
`putAsset`: keys sorted, compact output, JSON string escaping) -/

/-- Lowercase hexadecimal digit for a value below 16 (as `JSON.stringify`
prints `\u00XX` escapes). -/
def hexL (n : Nat) : Char :=
  "0123456789abcdef".data.getD n '0'

/-- JSON escape of one character, as `JSON.stringify` emits it. -/
def escChar (c : Char) : List Char :=
  if c = '"' then ['\\', '"']
  else if c = '\\' then ['\\', '\\']
  else if c = '\n' then ['\\', 'n']
  else if c = '\r' then ['\\', 'r']
  else if c = '\t' then ['\\', 't']
  else if c = '\x08' then ['\\', 'b']
  else if c = '\x0c' then ['\\', 'f']
  else if c.toNat < 0x20 then
    ['\\', 'u', '0', '0', hexL (c.toNat / 16), hexL (c.toNat % 16)]
  else [c]

/-- JSON escape of a character list. -/
def escapeL (l : List Char) : List Char :=
  l.flatMap escChar

/-- A JSON string literal: `"` + escaped content + `"`. -/
def jsonQuote (s : String) : String :=
  ⟨'"' :: (escapeL s.data ++ ['"'])⟩

/-- Lexicographic comparison of character lists by code point, as the JS
default sort comparator orders keys. -/
def strLeb : List Char → List Char → Bool
  | [], _ => true
  | _ :: _, [] => false
  | a :: as, b :: bs =>
    if a.toNat < b.toNat then true
    else if b.toNat < a.toNat then false
    else strLeb as bs

/-- Key order used by the serializer on an object's members. -/
def keyLe (p q : String × String) : Prop :=
  strLeb p.1.data q.1.data = true

instance : DecidableRel keyLe := fun p q => by
  unfold keyLe; infer_instance

/-- Sort an object's members by key (`sort-keys-recursive` /
`json-stringify-deterministic` both sort keys with the default string
comparison). -/
def sortPairs (ps : List (String × String)) : List (String × String) :=
  ps.insertionSort keyLe

/-- One serialized member, `"key":"value"`. -/
def memberL (p : String × String) : List Char :=
  '"' :: (escapeL p.1.data ++ '"' :: ':' :: '"' :: (escapeL p.2.data ++ ['"']))

/-- Comma-separated members. -/
def membersL : List (String × String) → List Char
  | [] => []
  | [p] => memberL p
  | p :: ps => memberL p ++ ',' :: membersL ps

/-- Compact JSON output of a flat string-valued object, members in the order
given. -/
def stringifyPairs (ps : List (String × String)) : String :=
  ⟨'\x7b' :: (membersL ps ++ ['\x7d'])⟩

/-- The canonical serializer applied to a record given as a member list in
field-assignment order: sort keys, then stringify deterministically. -/
def serializeRecord (ps : List (String × String)) : String :=
  stringifyPairs (sortPairs ps)

/-! ### JSON values for the `Update` payload and the metadata field -/

/-- A parsed JSON value as the contract distinguishes them: a string, a
non-null object of members, or anything else (`null`, numbers, booleans). -/
inductive JsVal where
  | str : String → JsVal
  | obj : List (String × JsVal) → JsVal
  | other : JsVal
deriving Repr

mutual

/-- `json-stringify-deterministic` on a parsed JSON value (keys sorted
recursively); used for a `metadata` object in `UpdateAsset`. -/
def stringifyJsVal : JsVal → String
  | .str s => jsonQuote s
  | .other => "null"
  | .obj kvs =>
    "\x7b" ++
      String.intercalate ","
        ((sortPairs (renderMembers kvs)).map fun p =>
          jsonQuote p.1 ++ ":" ++ p.2) ++ "\x7d"

/-- Stringify each member's value, keeping the key. -/
def renderMembers : List (String × JsVal) → List (String × String)
  | [] => []
  | (k, v) :: rest => (k, stringifyJsVal v) :: renderMembers rest

end

/-! ### Asset record (`asset.ts`) -/

/-- The `Asset` entity: nine string-valued properties, in declaration order
`identifier, metadata, owner, lendee, createdAt, updatedAt, status,
licenseEndsAt, fileLocation`.  `status` is a string at runtime (the
`AssetStatus` union type is erased). -/
structure Asset where
  identifier : String
  metadata : String
  owner : String
  lendee : String
  createdAt : String
  updatedAt : String
  status : String
  licenseEndsAt : String
  fileLocation : String
deriving Repr, DecidableEq

/-- The `Asset` constructor: field initializers plus
`this.metadata = metadataHandler(identifier)` with a `catch` falling back to
the raw identifier. -/
def Asset.new (identifier : String) : Asset where
  identifier := identifier
  metadata :=
    match metadataHandler identifier with
    | .ok m => m
    | .error _ => identifier
  owner := DEFAULT_OWNER
  lendee := "none"
  createdAt := ""
  updatedAt := ""
  status := "open"
  licenseEndsAt := ""
  fileLocation := ""

/-- The record's members in property-declaration order, as `JSON.stringify`
enumerates an instance. -/
def Asset.toPairs (a : Asset) : List (String × String) :=
  [("identifier", a.identifier), ("metadata", a.metadata),
   ("owner", a.owner), ("lendee", a.lendee),
   ("createdAt", a.createdAt), ("updatedAt", a.updatedAt),
   ("status", a.status), ("licenseEndsAt", a.licenseEndsAt),
   ("fileLocation", a.fileLocation)]

/-- `setMetadata`: requires a non-blank string; stores it trimmed. -/
def Asset.setMetadata (a : Asset) (metadata : String) :
    Except String Unit × Asset :=
  if jsTrim metadata = "" then
    (.error "metadata must be a non-empty string or object", a)
  else
    (.ok (), { a with metadata := jsTrim metadata })

/-- `setOwner`: requires a non-blank string; stores it trimmed. -/
def Asset.setOwner (a : Asset) (owner : String) : Except String Unit × Asset :=
  if jsTrim owner = "" then
    (.error "owner must be a non-empty string", a)
  else
    (.ok (), { a with owner := jsTrim owner })

/-- `setLendee`: requires a non-blank string; stores it trimmed. -/
def Asset.setLendee (a : Asset) (lendee : String) :
    Except String Unit × Asset :=
  if jsTrim lendee = "" then
    (.error "lendee must be a non-empty string", a)
  else
    (.ok (), { a with lendee := jsTrim lendee })

/-- `setCreatedAt`: requires a valid ISO 8601 string; stores it as given. -/
def Asset.setCreatedAt (a : Asset) (isoDate : String) :
    Except String Unit × Asset :=
  if validateISO isoDate then
    (.ok (), { a with createdAt := isoDate })
  else
    (.error "createdAt must be a valid ISO 8601 date string", a)

/-- `setUpdatedAt`: requires a valid ISO 8601 string; stores it as given. -/
def Asset.setUpdatedAt (a : Asset) (isoDate : String) :
    Except String Unit × Asset :=
  if validateISO isoDate then
    (.ok (), { a with updatedAt := isoDate })
  else
    (.error "updatedAt must be a valid ISO 8601 date string", a)

/-- `setStatus`: requires one of the accepted statuses. -/
def Asset.setStatus (a : Asset) (status : String) :
    Except String Unit × Asset :=
  if isAcceptedStatus status then
    (.ok (), { a with status := status })
  else
    (.error "status must be one of: open, loaned, locked", a)

/-- `setLicenseEndsAt`: requires a valid ISO 8601 string. -/
def Asset.setLicenseEndsAt (a : Asset) (isoDate : String) :
    Except String Unit × Asset :=
  if validateISO isoDate then
    (.ok (), { a with licenseEndsAt := isoDate })
  else
    (.error "licenseEndsAt must be a valid ISO 8601 date string", a)

/-- `setFile`: both arguments non-blank, recognized extension or MIME;
stores the location only. -/
def Asset.setFile (a : Asset) (location fileNameOrMime : String) :
    Except String Unit × Asset :=
  if jsTrim location = "" then
    (.error "file location must be a non-empty string", a)
  else if jsTrim fileNameOrMime = "" then
    (.error "file mime/name must be a non-empty string", a)
  else if !isAcceptedFileExtension fileNameOrMime then
    (.error ("Unsupported file type: " ++ fileNameOrMime), a)
  else
    (.ok (), { a with fileLocation := location })

/-! ### Parsing stored records back
(`JSON.parse` + `Object.assign(new Asset(id), stored)` on the canonical wire
format written by `putAsset`) -/

/-- Value of one hexadecimal digit. -/
def hexVal (c : Char) : Option Nat :=
  if '0' ≤ c ∧ c ≤ '9' then some (c.toNat - 48)
  else if 'a' ≤ c ∧ c ≤ 'f' then some (c.toNat - 87)
  else if 'A' ≤ c ∧ c ≤ 'F' then some (c.toNat - 55)
  else none

/-- The character named by a single-letter JSON escape, if the letter is a
recognized simple escape. -/
def escCharOf (e : Char) : Option Char :=
  if e = '"' then some '"'
  else if e = '\\' then some '\\'
  else if e = '/' then some '/'
  else if e = 'n' then some '\n'
  else if e = 'r' then some '\r'
  else if e = 't' then some '\t'
  else if e = 'b' then some '\x08'
  else if e = 'f' then some '\x0c'
  else none

/-- Parse the body of a JSON string literal up to and including the closing
quote, undoing the escapes; returns the content and the remaining input.
`fuel` bounds the recursion; one unit is spent per content character, so any
fuel above the input length is enough. -/
def parseStrBody : Nat → List Char → Option (List Char × List Char)
  | 0, _ => none
  | _ + 1, [] => none
  | fuel + 1, c :: rest =>
    if c = '"' then some ([], rest)
    else if c = '\\' then
      match rest with
      | [] => none
      | e :: r =>
        if e = 'u' then
          match r with
          | h1 :: h2 :: h3 :: h4 :: r2 =>
            (match hexVal h1, hexVal h2, hexVal h3, hexVal h4 with
             | some a, some b, some cc, some d =>
               let n := a * 4096 + b * 256 + cc * 16 + d
               if n.isValidChar then
                 (parseStrBody fuel r2).map fun (s, t) => (Char.ofNat n :: s, t)
               else none
             | _, _, _, _ => none)
          | _ => none
        else
          match escCharOf e with
          | some decoded =>
            (parseStrBody fuel r).map fun (s, t) => (decoded :: s, t)
          | none => none
    else if c.toNat < 0x20 then none
    else (parseStrBody fuel rest).map fun (s, t) => (c :: s, t)

/-- Parse a JSON string-literal body with enough fuel for its input. -/
def parseStr (r : List Char) : Option (List Char × List Char) :=
  parseStrBody (r.length + 1) r

/-- Parse the members of a flat string-valued object, starting at the opening
quote of the first key and consuming the closing brace.  `fuel` bounds the
number of members. -/
def parseMembers : Nat → List Char → Option (List (String × String) × List Char)
  | 0, _ => none
  | fuel + 1, '"' :: r =>
    match parseStr r with
    | some (k, ':' :: '"' :: r2) =>
      (match parseStr r2 with
       | some (v, ',' :: r4) =>
         (parseMembers fuel r4).map fun (ps, r5) => ((⟨k⟩, ⟨v⟩) :: ps, r5)
       | some (v, '\x7d' :: r4) => some ([(⟨k⟩, ⟨v⟩)], r4)
       | _ => none)
    | _ => none
  | _ + 1, _ => none

/-- Parse a complete flat string-valued JSON object (the canonical wire
format of a stored record); `none` models a `JSON.parse` failure. -/
def parseJsonFlat (s : String) : Option (List (String × String)) :=
  match s.data with
  | '\x7b' :: r =>
    if r = ['\x7d'] then some []
    else
      match parseMembers r.length r with
      | some (ps, []) => some ps
      | _ => none
  | _ => none

/-- Rebuild an `Asset` from the parsed members of a canonical stored record
(all nine fields, keys in sorted order), as `Object.assign(new Asset(id), …)`
reproduces every property from the stored object. -/
def assetOfPairs : List (String × String) → Option Asset
  | [("createdAt", ca), ("fileLocation", fl), ("identifier", id),
     ("lendee", le), ("licenseEndsAt", li), ("metadata", me),
     ("owner", ow), ("status", st), ("updatedAt", ua)] =>
    some ⟨id, me, ow, le, ca, ua, st, li, fl⟩
  | _ => none

/-- Deserialization of stored bytes into an asset record; `none` models the
paths where `JSON.parse` throws or the parsed value is not a canonical
record. -/
def deserializeAsset (s : String) : Option Asset :=
  (parseJsonFlat s).bind assetOfPairs

/-! ### Ledger state store (`ctx.stub`) -/

/-- The State Store: key/value entries in scan order. -/
def StateStore := List (String × String)

instance : DecidableEq StateStore := by
  unfold StateStore; infer_instance

/-- `getState`: the bytes under a key, empty for an absent key. -/
def getState : StateStore → String → String
  | [], _ => ""
  | (k, v) :: rest, key => if k = key then v else getState rest key

/-- `putState`: replace the entry under the key, or add one. -/
def putState : StateStore → String → String → StateStore
  | [], key, val => [(key, val)]
  | (k, v) :: rest, key, val =>
    if k = key then (key, val) :: rest else (k, v) :: putState rest key val

/-! ### The contract (`assetTransfer.ts`) -/

/-- The serialized bytes `putAsset` writes:
`stringify(sortKeysRecursive(JSON.parse(JSON.stringify(asset))))`. -/
def serializeAsset (a : Asset) : String :=
  serializeRecord a.toPairs

/-- `putAsset`: write the canonical serialization under `asset.identifier`. -/
def putAsset (st : StateStore) (a : Asset) : StateStore :=
  putState st a.identifier (serializeAsset a)

/-- `AssetExists`: false on the empty key, otherwise presence of bytes. -/
def AssetExists (st : StateStore) (identifier : String) : Bool :=
  if identifier = "" then false else (getState st identifier).length > 0

instance {ε α : Type} [DecidableEq ε] [DecidableEq α] :
    DecidableEq (Except ε α) := fun a b =>
  match a, b with
  | .ok x, .ok y =>
    if h : x = y then .isTrue (by rw [h]) else .isFalse (by simp [h])
  | .error x, .error y =>
    if h : x = y then .isTrue (by rw [h]) else .isFalse (by simp [h])
  | .ok _, .error _ => .isFalse (by simp)
  | .error _, .ok _ => .isFalse (by simp)

/-- Sequence a setter call into an operation: a thrown setter error aborts
the transaction with the ledger unchanged. -/
def bindSet (r : Except String Unit × Asset) (st : StateStore)
    (k : Asset → Except String Unit × StateStore) :
    Except String Unit × StateStore :=
  match r with
  | (.error e, _) => (.error e, st)
  | (.ok _, a) => k a

/-- `CreateAsset(ctx, identifier, owner, status, fileLocation,
fileMimeOrName)`; `now` is the injected ledger timestamp
(`getLedgerTimestampISO`). -/
def CreateAsset (st : StateStore) (now identifier owner status
    fileLocation fileMimeOrName : String) : Except String Unit × StateStore :=
  if !(parseIdentifier identifier).isOk then
    (.error "Identifier must be a supported type", st)
  else if AssetExists st identifier then
    (.error ("The asset " ++ identifier ++ " already exists"), st)
  else if fileLocation ≠ "" ∧ fileMimeOrName = "" then
    (.error "fileMimeOrName is required when fileLocation is provided", st)
  else if !isAcceptedStatus status then
    (.error ("Invalid status value: " ++ status), st)
  else
    bindSet
      (if jsTrim owner ≠ "" then (Asset.new identifier).setOwner owner
       else (.ok (), Asset.new identifier)) st fun a =>
    bindSet (a.setLendee "none") st fun a =>
    bindSet (a.setCreatedAt now) st fun a =>
    bindSet (a.setUpdatedAt now) st fun a =>
    bindSet (a.setStatus status) st fun a =>
    bindSet
      (if fileLocation ≠ "" then a.setFile fileLocation fileMimeOrName
       else (.ok (), a)) st fun a =>
    (.ok (), putAsset st a)

/-- `ReadAsset(ctx, identifier)`: the stored bytes, unchanged. -/
def ReadAsset (st : StateStore) (identifier : String) : Except String String :=
  if jsTrim identifier = "" then
    .error "identifier is required and must be a non-empty string"
  else if (getState st identifier).length = 0 then
    .error ("The asset " ++ identifier ++ " does not exist")
  else
    .ok (getState st identifier)

/-- The fields `UpdateAsset` looks for in the payload (`"…" in updateData`);
`none` means the key is absent. -/
structure UpdateData where
  owner : Option JsVal := none
  status : Option JsVal := none
  lendee : Option JsVal := none
  licenseEndsAt : Option JsVal := none
  fileLocation : Option JsVal := none
  fileMimeOrName : Option JsVal := none
  metadata : Option JsVal := none

/-- The `updates` argument of `UpdateAsset` after `JSON.parse`:
`emptyStr` models a blank argument, `malformed` a JSON parse failure,
`notAnObject` a JSON value on which the `in` operator throws
(a parsed primitive), and `parsed` an object payload. -/
inductive UpdatePayload where
  | emptyStr
  | malformed
  | notAnObject
  | parsed : UpdateData → UpdatePayload

/-- `requireNonEmpty` on a payload value: must be a string and non-blank. -/
def requireNonEmptyJ (v : JsVal) (name : String) : Except String Unit :=
  match v with
  | .str s =>
    if jsTrim s = "" then
      .error (name ++ " is required and must be a non-empty string")
    else .ok ()
  | _ => .error (name ++ " is required and must be a non-empty string")

/-- The string content of a payload value known to be a string
(`String(x)` after `requireNonEmpty` has passed). -/
def jsStrVal : JsVal → String
  | .str s => s
  | _ => ""

/-- Apply one optional payload field through `requireNonEmpty` and a setter. -/
def applyStrField (a : Asset) (v : Option JsVal) (name : String)
    (set : Asset → String → Except String Unit × Asset) :
    Except String Unit × Asset :=
  match v with
  | none => (.ok (), a)
  | some jv =>
    match requireNonEmptyJ jv name with
    | .error e => (.error e, a)
    | .ok _ => set a (jsStrVal jv)

/-- The `status` branch of `UpdateAsset`: `requireNonEmpty`, then the
`isAcceptedStatus` check, then `setStatus`. -/
def applyStatusField (a : Asset) (v : Option JsVal) :
    Except String Unit × Asset :=
  match v with
  | none => (.ok (), a)
  | some jv =>
    match requireNonEmptyJ jv "status" with
    | .error e => (.error e, a)
    | .ok _ =>
      if !isAcceptedStatus (jsStrVal jv) then
        (.error ("Invalid status value: " ++ jsStrVal jv), a)
      else a.setStatus (jsStrVal jv)

/-- The `fileLocation` branch of `UpdateAsset`: both `fileLocation` and
`fileMimeOrName` must be present and non-blank, then `setFile`. -/
def applyFileField (a : Asset) (loc mime : Option JsVal) :
    Except String Unit × Asset :=
  match loc with
  | none => (.ok (), a)
  | some jl =>
    match requireNonEmptyJ jl "fileLocation" with
    | .error e => (.error e, a)
    | .ok _ =>
      match mime with
      | none =>
        (.error "fileMimeOrName is required and must be a non-empty string", a)
      | some jm =>
        match requireNonEmptyJ jm "fileMimeOrName" with
        | .error e => (.error e, a)
        | .ok _ => a.setFile (jsStrVal jl) (jsStrVal jm)

/-- The `metadata` branch of `UpdateAsset`: a string is stored as given, an
object is stringified deterministically, anything else throws. -/
def applyMetadataField (a : Asset) (v : Option JsVal) :
    Except String Unit × Asset :=
  match v with
  | none => (.ok (), a)
  | some (.str m) => a.setMetadata m
  | some (.obj kvs) => a.setMetadata (stringifyJsVal (.obj kvs))
  | some .other => (.error "metadata must be a non-empty string or object", a)

/-- `UpdateAsset(ctx, identifier, updates)`. -/
def UpdateAsset (st : StateStore) (now identifier : String)
    (updates : UpdatePayload) : Except String Unit × StateStore :=
  if jsTrim identifier = "" then
    (.error "identifier is required and must be a non-empty string", st)
  else
    match updates with
    | .emptyStr =>
      (.error "updates is required and must be a non-empty string", st)
    | u =>
      if !AssetExists st identifier then
        (.error ("The asset " ++ identifier ++ " does not exist"), st)
      else
        match u with
        | .emptyStr =>
          (.error "updates is required and must be a non-empty string", st)
        | .malformed => (.error "updates must be a valid JSON string", st)
        | .notAnObject =>
          (.error "Cannot use in operator to search in updateData", st)
        | .parsed d =>
          match deserializeAsset (getState st identifier) with
          | none => (.error "Unexpected token in JSON", st)
          | some a =>
            bindSet (applyStrField a d.owner "owner" Asset.setOwner) st fun a =>
            bindSet (applyStatusField a d.status) st fun a =>
            bindSet (applyStrField a d.lendee "lendee" Asset.setLendee) st
              fun a =>
            bindSet (applyStrField a d.licenseEndsAt "licenseEndsAt"
              Asset.setLicenseEndsAt) st fun a =>
            bindSet (applyFileField a d.fileLocation d.fileMimeOrName) st
              fun a =>
            bindSet (applyMetadataField a d.metadata) st fun a =>
            bindSet (a.setUpdatedAt now) st fun a =>
            (.ok (), putAsset st a)

/-- `LendAsset(ctx, identifier, lendee)`. -/
def LendAsset (st : StateStore) (now identifier lendee : String) :
    Except String Unit × StateStore :=
  if jsTrim identifier = "" then
    (.error "identifier is required and must be a non-empty string", st)
  else if jsTrim lendee = "" then
    (.error "lendee is required and must be a non-empty string", st)
  else if (getState st identifier).length = 0 then
    (.error ("The asset " ++ identifier ++ " does not exist"), st)
  else
    match deserializeAsset (getState st identifier) with
    | none => (.error "Unexpected token in JSON", st)
    | some a =>
      if a.status ≠ "open" then
        (.error ("Asset " ++ identifier ++
          " is not available for lending (current status: " ++ a.status ++
          ")"), st)
      else
        bindSet (a.setStatus "loaned") st fun a =>
        bindSet (a.setLendee lendee) st fun a =>
        bindSet (a.setUpdatedAt now) st fun a =>
        (.ok (), putAsset st a)

/-- `ReturnAsset(ctx, identifier)`. -/
def ReturnAsset (st : StateStore) (now identifier : String) :
    Except String Unit × StateStore :=
  if jsTrim identifier = "" then
    (.error "identifier is required and must be a non-empty string", st)
  else if (getState st identifier).length = 0 then
    (.error ("The asset " ++ identifier ++ " does not exist"), st)
  else
    match deserializeAsset (getState st identifier) with
    | none => (.error "Unexpected token in JSON", st)
    | some a =>
      if a.status ≠ "loaned" then
        (.error ("Asset " ++ identifier ++
          " is not currently loaned (current status: " ++ a.status ++ ")"), st)
      else
        bindSet (a.setStatus "open") st fun a =>
        bindSet (a.setLendee "none") st fun a =>
        bindSet (a.setUpdatedAt now) st fun a =>
        (.ok (), putAsset st a)

/-- `GetAllAssets(ctx)`: scan every entry, `JSON.parse` each value, skip the
ones that fail to parse (the `catch` logs and continues), collect the rest in
scan order. -/
def GetAllAssets : StateStore → List (List (String × String))
  | [] => []
  | (_, bytes) :: rest =>
    match parseJsonFlat bytes with
    | some r => r :: GetAllAssets rest
    | none => GetAllAssets rest

/-! ### Spec-side predicate and concrete sample states used by the theorems -/

/-- Modelled from the spec: a string that "matches `TYPE_value` for a
recognized TYPE" — its trimmed form is a recognized type name, an underscore,
then a non-empty value free of line terminators.  Stated independently of
`parseIdentifier` so rejection claims are not circular. -/
def wellFormedIdentifier (s : String) : Prop :=
  jsTrim s ≠ "" ∧
    ∃ t : IdentifierType, ∃ raw : List Char,
      (jsTrim s).data = (typeName t).data ++ '_' :: raw ∧ raw ≠ [] ∧
      ∀ c ∈ raw, lineTerm c = false

/-- A stored record that is `open` with no borrower. -/
def openNoneSample : Asset :=
  ⟨"ISBN_1", "meta", "Alice", "none", "2023-01-02", "2023-01-02",
   "open", "", ""⟩

/-- A stored record that is `open` but carries a leftover borrower. -/
def openBobSample : Asset :=
  ⟨"ISBN_1", "meta", "Alice", "Bob", "2023-01-02", "2023-01-02",
   "open", "", ""⟩

/-- A one-entry ledger holding `openNoneSample`. -/
def storeOpenNone : StateStore :=
  putState [] "ISBN_1" (serializeAsset openNoneSample)

/-- A one-entry ledger holding `openBobSample`. -/
def storeOpenBob : StateStore :=
  putState [] "ISBN_1" (serializeAsset openBobSample)

/-! ## Serializer determinism -/

theorem strLeb_total : ∀ a b : List Char, strLeb a b = true ∨ strLeb b a = true := by
  intro a
  induction a with
  | nil => intro b; left; rfl
  | cons x xs ih =>
    intro b
    cases b with
    | nil => right; rfl
    | cons y ys =>
      by_cases h1 : x.toNat < y.toNat
      · left; simp [strLeb, h1]
      by_cases h2 : y.toNat < x.toNat
      · right; simp [strLeb, h2]
      · rcases ih ys with h | h
        · left; simp [strLeb, h1, h2, h]
        · right; simp [strLeb, h1, h2, h]

theorem strLeb_trans : ∀ a b c : List Char,
    strLeb a b = true → strLeb b c = true → strLeb a c = true := by
  intro a
  induction a with
  | nil => intro b c _ _; rfl
  | cons x xs ih =>
    intro b c hab hbc
    cases b with
    | nil => exact absurd hab (by simp [strLeb])
    | cons y ys =>
      cases c with
      | nil => exact absurd hbc (by simp [strLeb])
      | cons z zs =>
        simp only [strLeb] at hab hbc ⊢
        by_cases h1 : x.toNat < y.toNat <;> simp only [h1, if_true, if_false,
          if_pos, if_neg, not_false_iff] at hab <;>
        by_cases h2 : y.toNat < z.toNat <;> simp only [h2, if_true, if_false] at hbc
        · simp [show x.toNat < z.toNat by omega]
        · by_cases h3 : z.toNat < y.toNat
          · simp [h3] at hbc
          · simp [show x.toNat < z.toNat by omega]
        · by_cases h4 : y.toNat < x.toNat
          · simp [h4] at hab
          · simp [show x.toNat < z.toNat by omega]
        · by_cases h4 : y.toNat < x.toNat
          · simp [h4] at hab
          by_cases h3 : z.toNat < y.toNat
          · simp [h3] at hbc
          · simp only [h4, if_false] at hab
            simp only [h3, if_false] at hbc
            have hxz : ¬ x.toNat < z.toNat := by omega
            have hzx : ¬ z.toNat < x.toNat := by omega
            simp [hxz, hzx, ih ys zs hab hbc]

theorem strLeb_antisymm : ∀ a b : List Char,
    strLeb a b = true → strLeb b a = true → a = b := by
  intro a
  induction a with
  | nil =>
    intro b _ hba
    cases b with
    | nil => rfl
    | cons y ys => exact absurd hba (by simp [strLeb])
  | cons x xs ih =>
    intro b hab hba
    cases b with
    | nil => exact absurd hab (by simp [strLeb])
    | cons y ys =>
      simp only [strLeb] at hab hba
      by_cases h1 : x.toNat < y.toNat
      · have h2 : ¬ y.toNat < x.toNat := by omega
        simp [h1, h2] at hba
      by_cases h2 : y.toNat < x.toNat
      · simp [h1, h2] at hab
      · simp only [h1, h2, if_false] at hab hba
        have hxy : x = y := by
          have hnat : x.toNat = y.toNat := by omega
          calc x = Char.ofNat x.toNat := (Char.ofNat_toNat x).symm
            _ = Char.ofNat y.toNat := by rw [hnat]
            _ = y := Char.ofNat_toNat y
        rw [hxy, ih ys hab hba]

instance : IsTotal (String × String) keyLe :=
  ⟨fun p q => strLeb_total p.1.data q.1.data⟩

instance : IsTrans (String × String) keyLe :=
  ⟨fun _ _ _ h₁ h₂ => strLeb_trans _ _ _ h₁ h₂⟩

theorem sortPairs_perm (ps : List (String × String)) :
    List.Perm (sortPairs ps) ps :=
  List.perm_insertionSort keyLe ps

theorem sortPairs_sorted (ps : List (String × String)) :
    (sortPairs ps).Sorted keyLe :=
  List.sorted_insertionSort keyLe ps

/-- Two sorted member lists that are permutations of each other and have
duplicate-free keys are equal: sorting by key is canonical. -/
theorem sorted_nodupKeys_eq :
    ∀ {l₁ l₂ : List (String × String)}, List.Perm l₁ l₂ → l₁.Sorted keyLe →
      l₂.Sorted keyLe → (l₁.map Prod.fst).Nodup → l₁ = l₂ := by
  intro l₁
  induction l₁ with
  | nil =>
    intro l₂ hp _ _ _
    exact hp.nil_eq
  | cons a l ih =>
    intro l₂ hp hs₁ hs₂ hnd
    cases l₂ with
    | nil => exact absurd hp.symm.nil_eq (by simp)
    | cons b l₂t =>
      have hnd' : a.1 ∉ l.map Prod.fst ∧ (l.map Prod.fst).Nodup := by
        simpa using hnd
      have hab : a = b := by
        rcases List.mem_cons.mp (hp.subset (List.mem_cons_self a l)) with
          h | hal2
        · exact h
        rcases List.mem_cons.mp (hp.symm.subset (List.mem_cons_self b l₂t))
          with h | hbl
        · exact h.symm
        have h₁ : keyLe a b := (List.sorted_cons.mp hs₁).1 b hbl
        have h₂ : keyLe b a := (List.sorted_cons.mp hs₂).1 a hal2
        have heq : a.1 = b.1 :=
          congrArg String.mk (strLeb_antisymm _ _ h₁ h₂)
        exact absurd (heq ▸ List.mem_map_of_mem Prod.fst hbl) hnd'.1
      subst hab
      have htl : l = l₂t :=
        ih hp.cons_inv hs₁.of_cons hs₂.of_cons hnd'.2
      rw [htl]

/-- C1.  The canonical serializer (recursively sort keys, then deterministic
stringify, as `putAsset` applies to every record it writes) maps any two
member lists that contain the same fields with the same values — in whatever
order the fields were assigned — to byte-identical output. -/
theorem serializer_order_independent (ps₁ ps₂ : List (String × String))
    (hperm : ps₁.Perm ps₂) (hkeys : (ps₁.map Prod.fst).Nodup) :
    serializeRecord ps₁ = serializeRecord ps₂ := by
  unfold serializeRecord
  congr 1
  exact sorted_nodupKeys_eq
    ((sortPairs_perm ps₁).trans (hperm.trans (sortPairs_perm ps₂).symm))
    (sortPairs_sorted ps₁) (sortPairs_sorted ps₂)
    (((sortPairs_perm ps₁).map Prod.fst).nodup_iff.mpr hkeys)

theorem serializer_order_independent_witness :
    serializeRecord
        [("owner", "Alice"), ("lendee", "none"), ("status", "open")] =
      serializeRecord
        [("status", "open"), ("lendee", "none"), ("owner", "Alice")] :=
  serializer_order_independent _ _ (by decide) (by decide)

/-! ## State store and wire-format round trips -/

theorem getState_putState (st : StateStore) (k v : String) :
    getState (putState st k v) k = v := by
  induction st with
  | nil => simp [putState, getState]
  | cons p rest ih =>
    rcases p with ⟨k', v'⟩
    by_cases h : k' = k
    · simp [putState, getState, h]
    · simp [putState, getState, h, ih]

theorem hexVal_hexL : ∀ n < 16, hexVal (hexL n) = some n := by decide

theorem parseStrBody_escape :
    ∀ (l : List Char) (fuel : Nat) (rest : List Char), l.length < fuel →
      parseStrBody fuel (escapeL l ++ '"' :: rest) = some (l, rest) := by
  intro l
  induction l with
  | nil =>
    intro fuel rest hf
    obtain ⟨f, rfl⟩ : ∃ f, fuel = f + 1 := ⟨fuel - 1, by omega⟩
    simp [escapeL, parseStrBody]
  | cons c cs ih =>
    intro fuel rest hf
    obtain ⟨f, rfl⟩ : ∃ f, fuel = f + 1 := ⟨fuel - 1, by omega⟩
    have hf' : cs.length < f := by
      simp only [List.length_cons] at hf; omega
    have hcons : escapeL (c :: cs) = escChar c ++ escapeL cs := by
      simp [escapeL]
    rw [hcons, List.append_assoc]
    by_cases h1 : c = '"'
    · subst h1; simp [escChar, parseStrBody, escCharOf, ih _ _ hf']
    by_cases h2 : c = '\\'
    · subst h2; simp [escChar, parseStrBody, escCharOf, ih _ _ hf']
    by_cases h3 : c = '\n'
    · subst h3; simp [escChar, parseStrBody, escCharOf, ih _ _ hf']
    by_cases h4 : c = '\r'
    · subst h4; simp [escChar, parseStrBody, escCharOf, ih _ _ hf']
    by_cases h5 : c = '\t'
    · subst h5; simp [escChar, parseStrBody, escCharOf, ih _ _ hf']
    by_cases h6 : c = '\x08'
    · subst h6; simp [escChar, parseStrBody, escCharOf, ih _ _ hf']
    by_cases h7 : c = '\x0c'
    · subst h7; simp [escChar, parseStrBody, escCharOf, ih _ _ hf']
    by_cases h9 : c.toNat < 0x20
    · have e0 : hexVal '0' = some 0 := rfl
      have ed1 : hexVal (hexL (c.toNat / 16)) = some (c.toNat / 16) :=
        hexVal_hexL _ (by omega)
      have ed2 : hexVal (hexL (c.toNat % 16)) = some (c.toNat % 16) :=
        hexVal_hexL _ (by omega)
      have hval : (0 * 4096 + 0 * 256 + c.toNat / 16 * 16 + c.toNat % 16)
          = c.toNat := by omega
      have hvalid : (c.toNat).isValidChar := Or.inl (by omega)
      have hval2 : c.toNat / 16 * 16 + c.toNat % 16 = c.toNat := by omega
      simp [escChar, h1, h2, h3, h4, h5, h6, h7, h9, parseStrBody,
        e0, ed1, ed2, hval, hvalid, Char.ofNat_toNat, ih _ _ hf']
      rw [hval2]
      exact ⟨hvalid, Char.ofNat_toNat c⟩
    · simp [escChar, h1, h2, h3, h4, h5, h6, h7, h9, parseStrBody,
        ih _ _ hf']

theorem escChar_length_pos (c : Char) : 1 ≤ (escChar c).length := by
  unfold escChar
  repeat' split
  all_goals simp

theorem escapeL_length_ge (l : List Char) : l.length ≤ (escapeL l).length := by
  induction l with
  | nil => simp [escapeL]
  | cons c cs ih =>
    have h := escChar_length_pos c
    simp only [escapeL, List.flatMap_cons, List.length_append,
      List.length_cons] at ih ⊢
    omega

theorem parseStr_escape (l rest : List Char) :
    parseStr (escapeL l ++ '"' :: rest) = some (l, rest) := by
  apply parseStrBody_escape
  have h := escapeL_length_ge l
  simp only [List.length_append, List.length_cons]
  omega

theorem parseMembers_round :
    ∀ (ps : List (String × String)) (rest : List Char) (fuel : Nat),
      ps ≠ [] → ps.length ≤ fuel →
      parseMembers fuel (membersL ps ++ '\x7d' :: rest) = some (ps, rest) := by
  intro ps
  induction ps with
  | nil => intro rest fuel h _; exact absurd rfl h
  | cons p ps ih =>
    intro rest fuel _ hf
    simp only [List.length_cons] at hf
    obtain ⟨f, rfl⟩ : ∃ f, fuel = f + 1 := ⟨fuel - 1, by omega⟩
    rcases p with ⟨k, v⟩
    cases ps with
    | nil =>
      simp [membersL, memberL, parseMembers, List.append_assoc,
        parseStr_escape]
    | cons q qs =>
      have hf' : (q :: qs).length ≤ f := by
        simp only [List.length_cons] at hf ⊢; omega
      simp [membersL, memberL, parseMembers, List.append_assoc,
        parseStr_escape, ih rest f (by simp) hf']

theorem membersL_length :
    ∀ ps : List (String × String), ps.length ≤ (membersL ps).length := by
  intro ps
  induction ps with
  | nil => simp [membersL]
  | cons p ps ih =>
    cases ps with
    | nil => simp [membersL, memberL]
    | cons q qs =>
      have e : membersL (p :: q :: qs) = memberL p ++ ',' :: membersL (q :: qs) :=
        rfl
      have hm : 1 ≤ (memberL p).length := by simp [memberL]
      rw [e]
      simp only [List.length_append, List.length_cons] at *
      omega

theorem parseJsonFlat_stringify (ps : List (String × String)) :
    parseJsonFlat (stringifyPairs ps) = some ps := by
  cases ps with
  | nil => rfl
  | cons p ps =>
    obtain ⟨X, hX⟩ : ∃ X, membersL (p :: ps) = '"' :: X := by
      rcases p with ⟨k, v⟩
      cases ps <;> exact ⟨_, rfl⟩
    have hdata : (stringifyPairs (p :: ps)).data
        = '\x7b' :: '"' :: (X ++ ['\x7d']) := by
      simp [stringifyPairs, hX]
    have harg : '"' :: (X ++ ['\x7d'])
        = membersL (p :: ps) ++ '\x7d' :: [] := by
      rw [hX]; simp
    have hlen : (p :: ps).length ≤ (membersL (p :: ps) ++ '\x7d' :: []).length := by
      have h := membersL_length (p :: ps)
      simp only [List.length_append, List.length_cons] at *
      omega
    unfold parseJsonFlat
    rw [hdata]
    show (if '"' :: (X ++ ['\x7d']) = ['\x7d'] then some []
          else match parseMembers ('"' :: (X ++ ['\x7d'])).length
              ('"' :: (X ++ ['\x7d'])) with
            | some (ps, []) => some ps
            | _ => none) = some (p :: ps)
    rw [if_neg (by simp)]
    rw [harg, parseMembers_round (p :: ps) [] _ (by simp) hlen]


theorem sortPairs_toPairs (a : Asset) :
    sortPairs (Asset.toPairs a) =
      [("createdAt", a.createdAt), ("fileLocation", a.fileLocation),
       ("identifier", a.identifier), ("lendee", a.lendee),
       ("licenseEndsAt", a.licenseEndsAt), ("metadata", a.metadata),
       ("owner", a.owner), ("status", a.status), ("updatedAt", a.updatedAt)] :=
  rfl

/-- Reading back the canonical bytes written for a record reconstructs exactly
that record. -/
theorem deserialize_serialize (a : Asset) :
    deserializeAsset (serializeAsset a) = some a := by
  unfold deserializeAsset serializeAsset serializeRecord
  rw [sortPairs_toPairs, parseJsonFlat_stringify]
  rfl

theorem deserialize_some_ne_empty {s : String} {a : Asset}
    (h : deserializeAsset s = some a) : s.length ≠ 0 := by
  intro hlen
  have hs : s = "" := by
    cases s with
    | mk data => cases data with
      | nil => rfl
      | cons c cs => simp [String.length] at hlen
  rw [hs] at h
  exact Option.noConfusion h


/-! ## Failure atomicity -/

/-- A failing step inside a `bindSet` chain leaves the ledger unchanged,
provided the continuation does too. -/
theorem bindSet_snd_eq (r : Except String Unit × Asset) (st : StateStore)
    (k : Asset → Except String Unit × StateStore)
    (hk : ∀ a e, (k a).1 = .error e → (k a).2 = st) :
    ∀ e, (bindSet r st k).1 = .error e → (bindSet r st k).2 = st := by
  rcases r with ⟨r₁, a⟩
  cases r₁ with
  | error e₀ => intro e _; rfl
  | ok u => intro e h; exact hk a e h

theorem setMetadata_error_unchanged (a : Asset) (v e : String)
    (h : (a.setMetadata v).1 = .error e) : (a.setMetadata v).2 = a := by
  revert h; unfold Asset.setMetadata; split <;> intro h
  · rfl
  · exact absurd h (by simp)

theorem setOwner_error_unchanged (a : Asset) (v e : String)
    (h : (a.setOwner v).1 = .error e) : (a.setOwner v).2 = a := by
  revert h; unfold Asset.setOwner; split <;> intro h
  · rfl
  · exact absurd h (by simp)

theorem setLendee_error_unchanged (a : Asset) (v e : String)
    (h : (a.setLendee v).1 = .error e) : (a.setLendee v).2 = a := by
  revert h; unfold Asset.setLendee; split <;> intro h
  · rfl
  · exact absurd h (by simp)

theorem setCreatedAt_error_unchanged (a : Asset) (v e : String)
    (h : (a.setCreatedAt v).1 = .error e) : (a.setCreatedAt v).2 = a := by
  revert h; unfold Asset.setCreatedAt; split <;> intro h
  · exact absurd h (by simp)
  · rfl

theorem setUpdatedAt_error_unchanged (a : Asset) (v e : String)
    (h : (a.setUpdatedAt v).1 = .error e) : (a.setUpdatedAt v).2 = a := by
  revert h; unfold Asset.setUpdatedAt; split <;> intro h
  · exact absurd h (by simp)
  · rfl

theorem setStatus_error_unchanged (a : Asset) (v e : String)
    (h : (a.setStatus v).1 = .error e) : (a.setStatus v).2 = a := by
  revert h; unfold Asset.setStatus; split <;> intro h
  · exact absurd h (by simp)
  · rfl

theorem setLicenseEndsAt_error_unchanged (a : Asset) (v e : String)
    (h : (a.setLicenseEndsAt v).1 = .error e) :
    (a.setLicenseEndsAt v).2 = a := by
  revert h; unfold Asset.setLicenseEndsAt; split <;> intro h
  · exact absurd h (by simp)
  · rfl

theorem setFile_error_unchanged (a : Asset) (v w e : String)
    (h : (a.setFile v w).1 = .error e) : (a.setFile v w).2 = a := by
  revert h; unfold Asset.setFile
  split
  · intro _; rfl
  split
  · intro _; rfl
  split
  · intro _; rfl
  · intro h; exact absurd h (by simp)

theorem createAsset_error_unchanged
    (st : StateStore) (now identifier owner status fl fm e : String)
    (h : (CreateAsset st now identifier owner status fl fm).1 = .error e) :
    (CreateAsset st now identifier owner status fl fm).2 = st := by
  revert h
  unfold CreateAsset
  split
  · intro _; rfl
  split
  · intro _; rfl
  split
  · intro _; rfl
  split
  · intro _; rfl
  apply bindSet_snd_eq
  intro a e h; revert h
  apply bindSet_snd_eq
  intro a e h; revert h
  apply bindSet_snd_eq
  intro a e h; revert h
  apply bindSet_snd_eq
  intro a e h; revert h
  apply bindSet_snd_eq
  intro a e h; revert h
  apply bindSet_snd_eq
  intro a e h
  exact Except.noConfusion h

theorem updateAsset_error_unchanged
    (st : StateStore) (now identifier : String) (updates : UpdatePayload)
    (e : String)
    (h : (UpdateAsset st now identifier updates).1 = .error e) :
    (UpdateAsset st now identifier updates).2 = st := by
  revert h
  unfold UpdateAsset
  split
  · intro _; rfl
  split
  · intro _; rfl
  split
  · intro _; rfl
  split
  · intro _; rfl
  · intro _; rfl
  · intro _; rfl
  split
  · intro _; rfl
  apply bindSet_snd_eq
  intro a e h; revert h
  apply bindSet_snd_eq
  intro a e h; revert h
  apply bindSet_snd_eq
  intro a e h; revert h
  apply bindSet_snd_eq
  intro a e h; revert h
  apply bindSet_snd_eq
  intro a e h; revert h
  apply bindSet_snd_eq
  intro a e h; revert h
  apply bindSet_snd_eq
  intro a e h
  exact Except.noConfusion h

theorem lendAsset_error_unchanged
    (st : StateStore) (now identifier lendee e : String)
    (h : (LendAsset st now identifier lendee).1 = .error e) :
    (LendAsset st now identifier lendee).2 = st := by
  revert h
  unfold LendAsset
  split
  · intro _; rfl
  split
  · intro _; rfl
  split
  · intro _; rfl
  split
  · intro _; rfl
  split
  · intro _; rfl
  apply bindSet_snd_eq
  intro a e h; revert h
  apply bindSet_snd_eq
  intro a e h; revert h
  apply bindSet_snd_eq
  intro a e h
  exact Except.noConfusion h

theorem returnAsset_error_unchanged
    (st : StateStore) (now identifier e : String)
    (h : (ReturnAsset st now identifier).1 = .error e) :
    (ReturnAsset st now identifier).2 = st := by
  revert h
  unfold ReturnAsset
  split
  · intro _; rfl
  split
  · intro _; rfl
  split
  · intro _; rfl
  split
  · intro _; rfl
  apply bindSet_snd_eq
  intro a e h; revert h
  apply bindSet_snd_eq
  intro a e h; revert h
  apply bindSet_snd_eq
  intro a e h
  exact Except.noConfusion h

/-! ## Operation behavior on well-formed inputs -/

theorem parse_ok_ne_empty {s : String} {p : ParsedIdentifier}
    (h : parseIdentifier s = .ok p) : s ≠ "" := by
  intro he
  subst he
  have he2 : parseIdentifier "" =
      .error "identifier must be a non-empty string" := rfl
  rw [he2] at h
  exact Except.noConfusion h

theorem jsTrim_ne_empty {s : String} (h : jsTrim s ≠ "") : s ≠ "" := by
  intro he
  subst he
  exact h rfl

theorem lendAsset_spec (st : StateStore) (now identifier lendee : String)
    (a : Asset)
    (hid : jsTrim identifier ≠ "") (hl : jsTrim lendee ≠ "")
    (hget : deserializeAsset (getState st identifier) = some a) :
    (a.status ≠ "open" → LendAsset st now identifier lendee =
      (.error ("Asset " ++ identifier ++
        " is not available for lending (current status: " ++ a.status ++ ")"),
       st)) ∧
    (a.status = "open" → validateISO now = true →
      LendAsset st now identifier lendee =
        (.ok (), putAsset st
          { a with status := "loaned", lendee := jsTrim lendee,
                   updatedAt := now })) := by
  have hlen := deserialize_some_ne_empty hget
  constructor
  · intro hs
    unfold LendAsset
    rw [if_neg hid, if_neg hl, if_neg hlen, hget]
    simp only []
    rw [if_pos hs]
  · intro hs hnow
    unfold LendAsset
    rw [if_neg hid, if_neg hl, if_neg hlen, hget]
    simp only []
    rw [if_neg (by simp [hs])]
    simp [bindSet, Asset.setStatus, isAcceptedStatus, ACCEPTED_STATUSES,
      Asset.setLendee, hl, Asset.setUpdatedAt, hnow]

theorem returnAsset_spec (st : StateStore) (now identifier : String)
    (a : Asset)
    (hid : jsTrim identifier ≠ "")
    (hget : deserializeAsset (getState st identifier) = some a) :
    (a.status ≠ "loaned" → ReturnAsset st now identifier =
      (.error ("Asset " ++ identifier ++
        " is not currently loaned (current status: " ++ a.status ++ ")"),
       st)) ∧
    (a.status = "loaned" → validateISO now = true →
      ReturnAsset st now identifier =
        (.ok (), putAsset st
          { a with status := "open", lendee := "none", updatedAt := now })) := by
  have hlen := deserialize_some_ne_empty hget
  have hnone : jsTrim "none" = "none" := rfl
  constructor
  · intro hs
    unfold ReturnAsset
    rw [if_neg hid, if_neg hlen, hget]
    simp only []
    rw [if_pos hs]
  · intro hs hnow
    unfold ReturnAsset
    rw [if_neg hid, if_neg hlen, hget]
    simp only []
    rw [if_neg (by simp [hs])]
    simp [bindSet, Asset.setStatus, isAcceptedStatus, ACCEPTED_STATUSES,
      Asset.setLendee, hnone, Asset.setUpdatedAt, hnow]

theorem createAsset_spec (st : StateStore)
    (now identifier owner status : String) (p : ParsedIdentifier)
    (hp : parseIdentifier identifier = .ok p)
    (habs : getState st identifier = "")
    (howner : jsTrim owner ≠ "")
    (hnow : validateISO now = true)
    (hstatus : isAcceptedStatus status = true) :
    CreateAsset st now identifier owner status "" "" =
      (.ok (), putState st identifier (serializeAsset
        { identifier := identifier,
          metadata := metadataHandlers p.type p.value,
          owner := jsTrim owner, lendee := "none",
          createdAt := now, updatedAt := now,
          status := status, licenseEndsAt := "", fileLocation := "" })) := by
  have hne : identifier ≠ "" := parse_ok_ne_empty hp
  have hex : AssetExists st identifier = false := by
    unfold AssetExists
    rw [if_neg hne, habs]
    rfl
  have hnew : Asset.new identifier =
      { identifier := identifier,
        metadata := metadataHandlers p.type p.value,
        owner := DEFAULT_OWNER, lendee := "none",
        createdAt := "", updatedAt := "",
        status := "open", licenseEndsAt := "", fileLocation := "" } := by
    unfold Asset.new metadataHandler
    rw [hp]
    rfl
  have hnone : jsTrim "none" = "none" := rfl
  unfold CreateAsset
  rw [hp, hex]
  simp only [Except.isOk, Except.toBool, Bool.not_true, Bool.false_eq_true,
    if_false, Bool.not_false, if_true]
  rw [if_neg (by simp), if_neg (by simp [hstatus]), if_pos howner, hnew]
  simp [bindSet, Asset.setOwner, howner, Asset.setLendee, hnone,
    Asset.setCreatedAt, Asset.setUpdatedAt, hnow, Asset.setStatus, hstatus,
    putAsset]

theorem updateAsset_loaned_spec (st : StateStore) (now identifier : String)
    (a : Asset)
    (hid : jsTrim identifier ≠ "")
    (hget : deserializeAsset (getState st identifier) = some a)
    (hnow : validateISO now = true) :
    UpdateAsset st now identifier (.parsed { status := some (.str "loaned") }) =
      (.ok (), putAsset st { a with status := "loaned", updatedAt := now }) := by
  have hlen := deserialize_some_ne_empty hget
  have hne : identifier ≠ "" := jsTrim_ne_empty hid
  have hex : AssetExists st identifier = true := by
    unfold AssetExists
    rw [if_neg hne]
    simp [Nat.pos_of_ne_zero hlen]
  unfold UpdateAsset
  rw [if_neg hid]
  simp only []
  rw [hex]
  simp only [Bool.not_true, Bool.false_eq_true, if_false]
  rw [hget]
  have hloaned : jsTrim "loaned" = "loaned" := rfl
  simp [bindSet, applyStrField, applyStatusField, applyFileField,
    applyMetadataField, requireNonEmptyJ, jsStrVal, hloaned, Asset.setStatus,
    isAcceptedStatus, ACCEPTED_STATUSES, Asset.setUpdatedAt, hnow]

/-- C9.  `GetAllAssets` returns exactly the deserializable records, in
state-store scan order: every entry whose bytes parse contributes its record,
entries whose bytes fail to parse are skipped, and — the function being total
— a corrupt entry never makes the whole scan fail. -/
theorem getAllAssets_eq_filterMap (st : StateStore) :
    GetAllAssets st = st.filterMap (fun kv => parseJsonFlat kv.2) := by
  induction st with
  | nil => rfl
  | cons kv rest ih =>
    rcases kv with ⟨k, v⟩
    cases h : parseJsonFlat v <;>
      simp [GetAllAssets, h, ih, List.filterMap_cons]


/-- C4.  Whenever any validation step of Create, Update, Lend or Return
fails, the operation performs no State Store write — the ledger after the
failed invocation equals the ledger before it — and every field-level setter
that fails leaves the record (hence its field) unchanged. -/
theorem validation_failure_no_partial_write :
    (∀ a v e, (Asset.setMetadata a v).1 = .error e →
      (Asset.setMetadata a v).2 = a) ∧
    (∀ a v e, (Asset.setOwner a v).1 = .error e →
      (Asset.setOwner a v).2 = a) ∧
    (∀ a v e, (Asset.setLendee a v).1 = .error e →
      (Asset.setLendee a v).2 = a) ∧
    (∀ a v e, (Asset.setCreatedAt a v).1 = .error e →
      (Asset.setCreatedAt a v).2 = a) ∧
    (∀ a v e, (Asset.setUpdatedAt a v).1 = .error e →
      (Asset.setUpdatedAt a v).2 = a) ∧
    (∀ a v e, (Asset.setStatus a v).1 = .error e →
      (Asset.setStatus a v).2 = a) ∧
    (∀ a v e, (Asset.setLicenseEndsAt a v).1 = .error e →
      (Asset.setLicenseEndsAt a v).2 = a) ∧
    (∀ a v w e, (Asset.setFile a v w).1 = .error e →
      (Asset.setFile a v w).2 = a) ∧
    (∀ st now i o s fl fm e, (CreateAsset st now i o s fl fm).1 = .error e →
      (CreateAsset st now i o s fl fm).2 = st) ∧
    (∀ st now i u e, (UpdateAsset st now i u).1 = .error e →
      (UpdateAsset st now i u).2 = st) ∧
    (∀ st now i l e, (LendAsset st now i l).1 = .error e →
      (LendAsset st now i l).2 = st) ∧
    (∀ st now i e, (ReturnAsset st now i).1 = .error e →
      (ReturnAsset st now i).2 = st) :=
  ⟨setMetadata_error_unchanged, setOwner_error_unchanged,
   setLendee_error_unchanged, setCreatedAt_error_unchanged,
   setUpdatedAt_error_unchanged, setStatus_error_unchanged,
   setLicenseEndsAt_error_unchanged, setFile_error_unchanged,
   createAsset_error_unchanged, updateAsset_error_unchanged,
   lendAsset_error_unchanged, returnAsset_error_unchanged⟩

theorem validation_failure_no_partial_write_witness :
    (CreateAsset [] "2023-01-02" "bad" "Alice" "open" "" "").2 = [] ∧
    (UpdateAsset [] "2023-01-02" "ISBN_1" .malformed).2 = [] ∧
    (LendAsset [] "2023-01-02" "ISBN_1" "Bob").2 = [] ∧
    (ReturnAsset [] "2023-01-02" "ISBN_1").2 = [] ∧
    (Asset.setOwner openNoneSample " ").2 = openNoneSample := by
  obtain ⟨-, ho, -, -, -, -, -, -, hC, hU, hL, hR⟩ :=
    validation_failure_no_partial_write
  exact ⟨hC [] "2023-01-02" "bad" "Alice" "open" "" ""
      "Identifier must be a supported type" rfl,
    hU [] "2023-01-02" "ISBN_1" .malformed "The asset ISBN_1 does not exist"
      rfl,
    hL [] "2023-01-02" "ISBN_1" "Bob" "The asset ISBN_1 does not exist" rfl,
    hR [] "2023-01-02" "ISBN_1" "The asset ISBN_1 does not exist" rfl,
    ho openNoneSample " " "owner must be a non-empty string" rfl⟩

/-! ## Update with status "loaned" and no lendee (C2) -/

set_option maxRecDepth 40000 in
/-- C2 (counterexample).  On a stored asset whose `lendee` is `"none"`,
`UpdateAsset` with payload `{"status":"loaned"}` does not fail with a
`LendeeRequired` error: it succeeds, and the written record has
`status = "loaned"` with `lendee` still `"none"`. -/
theorem update_loaned_without_lendee_accepted :
    (UpdateAsset storeOpenNone "2023-01-03" "ISBN_1"
        (.parsed { status := some (.str "loaned") })).1 = .ok () ∧
    deserializeAsset (getState (UpdateAsset storeOpenNone "2023-01-03" "ISBN_1"
        (.parsed { status := some (.str "loaned") })).2 "ISBN_1") =
      some { openNoneSample with
             status := "loaned"
             updatedAt := "2023-01-03" } := by
  decide

/-- C2 (amended).  For every stored asset whose `lendee` field is `"none"`,
invoking Update with a payload containing `status: "loaned"` and no `lendee`
field succeeds — the contract has no `LendeeRequired` check — and writes the
record back with `status = "loaned"` and `lendee` still `"none"`. -/
theorem updateAsset_loaned_keeps_none_lendee (st : StateStore)
    (now identifier : String) (a : Asset)
    (hid : jsTrim identifier ≠ "")
    (hget : deserializeAsset (getState st identifier) = some a)
    (hnow : validateISO now = true)
    (hlendee : a.lendee = "none") :
    UpdateAsset st now identifier
        (.parsed { status := some (.str "loaned") }) =
      (.ok (), putAsset st { a with status := "loaned", updatedAt := now }) ∧
    ({ a with status := "loaned", updatedAt := now }).status = "loaned" ∧
    ({ a with status := "loaned", updatedAt := now }).lendee = "none" :=
  ⟨updateAsset_loaned_spec st now identifier a hid hget hnow, rfl, hlendee⟩

set_option maxRecDepth 40000 in
theorem updateAsset_loaned_keeps_none_lendee_witness :
    UpdateAsset storeOpenNone "2023-01-03" "ISBN_1"
        (.parsed { status := some (.str "loaned") }) =
      (.ok (), putAsset storeOpenNone
        { openNoneSample with
          status := "loaned"
          updatedAt := "2023-01-03" }) ∧
    ({ openNoneSample with
        status := "loaned"
        updatedAt := "2023-01-03" }).lendee = "none" :=
  ⟨(updateAsset_loaned_keeps_none_lendee storeOpenNone "2023-01-03" "ISBN_1"
      openNoneSample (by decide) (by decide) (by decide) rfl).1,
   rfl⟩

/-! ## Lend validation (C3) -/

set_option maxRecDepth 40000 in
/-- C3 (counterexample).  `LendAsset` performs no `InvalidLendee` check: on an
open asset owned by `"Alice"`, lending to `"Alice"` (the owner) and lending to
`"none"` both succeed instead of failing. -/
theorem lend_to_owner_or_none_accepted :
    (LendAsset storeOpenNone "2023-01-03" "ISBN_1" "Alice").1 = .ok () ∧
    (LendAsset storeOpenNone "2023-01-03" "ISBN_1" "none").1 = .ok () ∧
    openNoneSample.owner = "Alice" ∧ openNoneSample.status = "open" := by
  decide

/-- C3 (amended).  For every stored asset, `LendAsset` fails with a
`NotAvailable` error whenever the current status is not `open`; whenever the
status is `open` and the lendee argument is non-blank, it succeeds and sets
`status = "loaned"` and `lendee` to the trimmed borrower — with no
`InvalidLendee` check, so this holds even when the borrower equals `"none"`
or the asset's owner. -/
theorem lendAsset_not_available_or_succeeds (st : StateStore)
    (now identifier lendee : String) (a : Asset)
    (hid : jsTrim identifier ≠ "") (hl : jsTrim lendee ≠ "")
    (hget : deserializeAsset (getState st identifier) = some a) :
    (a.status ≠ "open" → LendAsset st now identifier lendee =
      (.error ("Asset " ++ identifier ++
        " is not available for lending (current status: " ++ a.status ++ ")"),
       st)) ∧
    (a.status = "open" → validateISO now = true →
      LendAsset st now identifier lendee =
        (.ok (), putAsset st
          { a with status := "loaned", lendee := jsTrim lendee,
                   updatedAt := now })) :=
  lendAsset_spec st now identifier lendee a hid hl hget

set_option maxRecDepth 40000 in
theorem lendAsset_not_available_or_succeeds_witness :
    LendAsset storeOpenNone "2023-01-03" "ISBN_1" "Alice" =
      (.ok (), putAsset storeOpenNone
        { openNoneSample with
          status := "loaned"
          lendee := "Alice"
          updatedAt := "2023-01-03" }) :=
  (lendAsset_not_available_or_succeeds storeOpenNone "2023-01-03" "ISBN_1"
    "Alice" openNoneSample (by decide) (by decide) (by decide)).2 rfl (by decide)

/-! ## Create/Read round trip (C5), Lend/Return (C6), Create with status
loaned (C10) -/

theorem serializeAsset_length_ne_zero (a : Asset) :
    (serializeAsset a).length ≠ 0 := by
  unfold serializeAsset serializeRecord stringifyPairs
  simp [String.length]

/-- C5.  Creating `ISBN_12345` with owner `"Alice"` on a ledger where that key
is absent and then reading it back returns the record just written, whose
`status` is `"open"`, `lendee` is `"none"`, and `createdAt` equals
`updatedAt`. -/
theorem create_read_roundtrip (st : StateStore) (now : String)
    (habs : getState st "ISBN_12345" = "")
    (hnow : validateISO now = true) :
    ∃ c : Asset,
      CreateAsset st now "ISBN_12345" "Alice" "open" "" "" =
        (.ok (), putState st "ISBN_12345" (serializeAsset c)) ∧
      ReadAsset (putState st "ISBN_12345" (serializeAsset c)) "ISBN_12345" =
        .ok (serializeAsset c) ∧
      c.status = "open" ∧ c.lendee = "none" ∧ c.createdAt = c.updatedAt := by
  refine ⟨{ identifier := "ISBN_12345",
            metadata := metadataHandlers .ISBN "12345",
            owner := "Alice", lendee := "none",
            createdAt := now, updatedAt := now,
            status := "open", licenseEndsAt := "", fileLocation := "" },
          ?_, ?_, rfl, rfl, rfl⟩
  · exact createAsset_spec st now "ISBN_12345" "Alice" "open" ⟨.ISBN, "12345"⟩
      (by decide) habs (by decide) hnow (by decide)
  · unfold ReadAsset
    rw [if_neg (by decide : ¬ jsTrim "ISBN_12345" = ""), getState_putState,
      if_neg (serializeAsset_length_ne_zero _)]

theorem create_read_roundtrip_witness :
    ∃ c : Asset,
      CreateAsset [] "2023-01-02" "ISBN_12345" "Alice" "open" "" "" =
        (.ok (), putState [] "ISBN_12345" (serializeAsset c)) ∧
      ReadAsset (putState [] "ISBN_12345" (serializeAsset c)) "ISBN_12345" =
        .ok (serializeAsset c) ∧
      c.status = "open" ∧ c.lendee = "none" ∧ c.createdAt = c.updatedAt :=
  create_read_roundtrip [] "2023-01-02" rfl (by decide)

set_option maxRecDepth 80000 in
/-- C6 (counterexample).  A stored asset can be `open` with a leftover
borrower (`lendee = "Bob"`, a state `Update` can produce).  Lend to `"Carol"`
then Return leaves `lendee = "none"`, which differs from its value before the
sequence — so Lend-then-Return does not restore the `lendee` field to its
prior value for every stored open asset. -/
theorem lend_return_changes_leftover_lendee :
    openBobSample.status = "open" ∧ openBobSample.lendee = "Bob" ∧
    (LendAsset storeOpenBob "2023-01-03" "ISBN_1" "Carol").1 = .ok () ∧
    (ReturnAsset (LendAsset storeOpenBob "2023-01-03" "ISBN_1" "Carol").2
        "2023-01-04" "ISBN_1").1 = .ok () ∧
    (deserializeAsset (getState (ReturnAsset
        (LendAsset storeOpenBob "2023-01-03" "ISBN_1" "Carol").2
        "2023-01-04" "ISBN_1").2 "ISBN_1")).map Asset.lendee = some "none" ∧
    some "none" ≠ some openBobSample.lendee := by
  decide

/-- C6 (amended).  For every stored asset whose status is `open` (stored under
its own identifier), Lend with a non-blank borrower followed by Return
succeeds and writes the record with `status = "open"` — equal to its value
before the sequence — and `lendee = "none"`, which equals its prior value
whenever the asset had no leftover borrower (`lendee = "none"`) before. -/
theorem lend_then_return_restores (st : StateStore)
    (now₁ now₂ identifier lendee : String) (a : Asset)
    (hget : deserializeAsset (getState st identifier) = some a)
    (hkey : a.identifier = identifier)
    (hopen : a.status = "open")
    (hid : jsTrim identifier ≠ "") (hl : jsTrim lendee ≠ "")
    (h1 : validateISO now₁ = true) (h2 : validateISO now₂ = true) :
    ∃ u₁ u₂ : StateStore,
      LendAsset st now₁ identifier lendee = (.ok (), u₁) ∧
      ReturnAsset u₁ now₂ identifier = (.ok (), u₂) ∧
      deserializeAsset (getState u₂ identifier) =
        some { a with
               status := "open"
               lendee := "none"
               updatedAt := now₂ } ∧
      ({ a with
         status := "open"
         lendee := "none"
         updatedAt := now₂ }).status = a.status ∧
      ({ a with
         status := "open"
         lendee := "none"
         updatedAt := now₂ }).lendee = "none" := by
  have hLend := (lendAsset_spec st now₁ identifier lendee a hid hl hget).2
    hopen h1
  set a₁ : Asset :=
    { a with status := "loaned", lendee := jsTrim lendee, updatedAt := now₁ }
    with ha₁
  have hg1 : getState (putAsset st a₁) identifier = serializeAsset a₁ := by
    unfold putAsset
    have hk : a₁.identifier = identifier := hkey
    rw [hk, getState_putState]
  have hget₁ : deserializeAsset (getState (putAsset st a₁) identifier) =
      some a₁ := by
    rw [hg1, deserialize_serialize]
  have hRet := (returnAsset_spec (putAsset st a₁) now₂ identifier a₁ hid
    hget₁).2 rfl h2
  refine ⟨putAsset st a₁,
    putAsset (putAsset st a₁)
      { a₁ with status := "open", lendee := "none", updatedAt := now₂ },
    hLend, hRet, ?_, hopen.symm, rfl⟩
  unfold putAsset
  have hk2 : ({ a₁ with
      status := "open"
      lendee := "none"
      updatedAt := now₂ } : Asset).identifier = identifier := hkey
  rw [hk2, getState_putState, deserialize_serialize]

set_option maxRecDepth 40000 in
theorem lend_then_return_restores_witness :
    ∃ u₁ u₂ : StateStore,
      LendAsset storeOpenNone "2023-01-03" "ISBN_1" "Bob" = (.ok (), u₁) ∧
      ReturnAsset u₁ "2023-01-04" "ISBN_1" = (.ok (), u₂) ∧
      deserializeAsset (getState u₂ "ISBN_1") =
        some { openNoneSample with
               status := "open"
               lendee := "none"
               updatedAt := "2023-01-04" } ∧
      ({ openNoneSample with
          status := "open"
          lendee := "none"
          updatedAt := "2023-01-04" }).status = openNoneSample.status ∧
      ({ openNoneSample with
          status := "open"
          lendee := "none"
          updatedAt := "2023-01-04" }).lendee = "none" :=
  lend_then_return_restores storeOpenNone "2023-01-03" "2023-01-04" "ISBN_1"
    "Bob" openNoneSample (by decide) rfl rfl (by decide) (by decide)
    (by decide) (by decide)

/-- C10.  Create with `status = "loaned"` (and a non-blank owner) on an
absent, supported identifier succeeds — Create performs no lendee-required
check — and the written record has `status = "loaned"` and
`lendee = "none"`. -/
theorem create_loaned_no_lendee_check (st : StateStore)
    (now identifier owner : String) (p : ParsedIdentifier)
    (hp : parseIdentifier identifier = .ok p)
    (habs : getState st identifier = "")
    (howner : jsTrim owner ≠ "")
    (hnow : validateISO now = true) :
    ∃ c : Asset,
      CreateAsset st now identifier owner "loaned" "" "" =
        (.ok (), putState st identifier (serializeAsset c)) ∧
      c.status = "loaned" ∧ c.lendee = "none" :=
  ⟨{ identifier := identifier,
     metadata := metadataHandlers p.type p.value,
     owner := jsTrim owner, lendee := "none",
     createdAt := now, updatedAt := now,
     status := "loaned", licenseEndsAt := "", fileLocation := "" },
   createAsset_spec st now identifier owner "loaned" p hp habs howner hnow
     (by decide), rfl, rfl⟩

theorem create_loaned_no_lendee_check_witness :
    ∃ c : Asset,
      CreateAsset [] "2023-01-02" "ISBN_12345" "Alice" "loaned" "" "" =
        (.ok (), putState [] "ISBN_12345" (serializeAsset c)) ∧
      c.status = "loaned" ∧ c.lendee = "none" :=
  create_loaned_no_lendee_check [] "2023-01-02" "ISBN_12345" "Alice"
    ⟨.ISBN, "12345"⟩ (by decide) rfl (by decide) (by decide)

/-! ## Identifier parse/format (C7) -/

theorem dropLit_sound :
    ∀ (pre l rest : List Char), dropLit pre l = some rest → l = pre ++ rest := by
  intro pre
  induction pre with
  | nil =>
    intro l rest h
    simpa [dropLit] using h
  | cons p ps ih =>
    intro l rest h
    cases l with
    | nil => simp [dropLit] at h
    | cons c cs =>
      by_cases hpc : p = c
      · subst hpc
        simp only [dropLit, if_pos rfl] at h
        rw [List.cons_append, ih cs rest h]
      · simp [dropLit, hpc] at h

theorem tryType_sound {t t' : IdentifierType} {l rest : List Char}
    (h : tryType t l = some (t', rest)) :
    t' = t ∧ l = (typeName t).data ++ '_' :: rest := by
  unfold tryType at h
  cases hd : dropLit ((typeName t).data ++ ['_']) l with
  | none => rw [hd] at h; simp at h
  | some r =>
    rw [hd] at h
    simp at h
    obtain ⟨ht, hr⟩ := h
    subst hr
    have hl := dropLit_sound _ _ _ hd
    rw [List.append_assoc] at hl
    exact ⟨ht.symm, by simpa using hl⟩

theorem matchTypeUnderscore_sound {l rest : List Char} {t : IdentifierType}
    (h : matchTypeUnderscore l = some (t, rest)) :
    l = (typeName t).data ++ '_' :: rest := by
  unfold matchTypeUnderscore at h
  rcases h1 : tryType .ISBN l with _ | p1
  all_goals rw [h1] at h
  case some =>
    simp only [Option.some_orElse] at h
    obtain ⟨ht, hl⟩ := tryType_sound (h1.trans h)
    subst ht
    exact hl
  simp only [Option.none_orElse] at h
  rcases h2 : tryType .OCLC l with _ | p2
  all_goals rw [h2] at h
  case some =>
    simp only [Option.some_orElse] at h
    obtain ⟨ht, hl⟩ := tryType_sound (h2.trans h)
    subst ht
    exact hl
  simp only [Option.none_orElse] at h
  rcases h3 : tryType .LCCN l with _ | p3
  all_goals rw [h3] at h
  case some =>
    simp only [Option.some_orElse] at h
    obtain ⟨ht, hl⟩ := tryType_sound (h3.trans h)
    subst ht
    exact hl
  simp only [Option.none_orElse] at h
  rcases h4 : tryType .OLID l with _ | p4
  all_goals rw [h4] at h
  case some =>
    simp only [Option.some_orElse] at h
    obtain ⟨ht, hl⟩ := tryType_sound (h4.trans h)
    subst ht
    exact hl
  simp only [Option.none_orElse] at h
  obtain ⟨ht, hl⟩ := tryType_sound h
  subst ht
  exact hl

theorem parse_ok_chars {s : String} {p : ParsedIdentifier}
    (h : parseIdentifier s = .ok p) :
    jsTrim s ≠ "" ∧
    ∃ rest : List Char,
      (jsTrim s).data = (typeName p.type).data ++ '_' :: rest ∧
      rest ≠ [] ∧ (∀ c ∈ rest, lineTerm c = false) ∧
      p.value = ⟨jsTrimL rest⟩ := by
  unfold parseIdentifier at h
  by_cases h0 : jsTrim s = ""
  · rw [if_pos h0] at h; exact Except.noConfusion h
  rw [if_neg h0] at h
  refine ⟨h0, ?_⟩
  cases hm : matchTypeUnderscore (jsTrim s).data with
  | none => rw [hm] at h; exact Except.noConfusion h
  | some tr =>
    rcases tr with ⟨t, rest⟩
    rw [hm] at h
    simp only [] at h
    by_cases hc : rest ≠ [] ∧ rest.all (fun c => !lineTerm c)
    · rw [if_pos hc] at h
      by_cases hv : jsTrimL rest = []
      · simp only [hv, if_pos rfl] at h
        exact Except.noConfusion h
      · simp only [if_neg hv, Except.ok.injEq] at h
        subst h
        refine ⟨rest, matchTypeUnderscore_sound hm, hc.1, ?_, rfl⟩
        intro c hcm
        have := List.all_eq_true.mp hc.2 c hcm
        simpa using this
    · rw [if_neg hc] at h
      exact Except.noConfusion h

/-- C7 (amended).  For every accepted string `s`, the trimmed form of `s`
decomposes as `TYPE_raw`, the parsed value is `raw` trimmed, and formatting
the parse result equals the trimmed form of `s` whenever `raw` carries no
surrounding whitespace (the parser trims the captured value, so an input like
`"ISBN_ 5"` formats back differently); and every string that is empty or
whitespace, or does not match `TYPE_value` for a recognized TYPE, is rejected
with an error. -/
theorem parse_format_amended :
    (∀ (s : String) (p : ParsedIdentifier), parseIdentifier s = .ok p →
      ∃ raw : List Char,
        (jsTrim s).data = (typeName p.type).data ++ '_' :: raw ∧
        p.value = ⟨jsTrimL raw⟩ ∧
        (jsTrimL raw = raw → parsedIdToString p = jsTrim s)) ∧
    (∀ s : String, ¬ wellFormedIdentifier s →
      ∃ e, parseIdentifier s = .error e) := by
  constructor
  · intro s p h
    obtain ⟨-, raw, hdec, -, -, hval⟩ := parse_ok_chars h
    refine ⟨raw, hdec, hval, ?_⟩
    intro hr
    have hdata : (parsedIdToString p).data = (jsTrim s).data := by
      rw [hdec]
      simp [parsedIdToString, String.data_append, hval, hr]
    exact congrArg String.mk hdata
  · intro s hnw
    cases hp : parseIdentifier s with
    | error e => exact ⟨e, rfl⟩
    | ok p =>
      obtain ⟨hne, rest, hdec, hrne, hlt, -⟩ := parse_ok_chars hp
      exact absurd ⟨hne, p.type, rest, hdec, hrne, hlt⟩ hnw

theorem parse_format_amended_witness :
    (∃ raw : List Char,
      (jsTrim "ISBN_7").data = (typeName IdentifierType.ISBN).data ++
        '_' :: raw ∧
      (⟨IdentifierType.ISBN, "7"⟩ : ParsedIdentifier).value = ⟨jsTrimL raw⟩ ∧
      (jsTrimL raw = raw →
        parsedIdToString ⟨IdentifierType.ISBN, "7"⟩ = jsTrim "ISBN_7")) ∧
    (∃ e, parseIdentifier "" = .error e) :=
  ⟨parse_format_amended.1 "ISBN_7" ⟨.ISBN, "7"⟩ (by decide),
   parse_format_amended.2 "" (fun hw => hw.1 rfl)⟩

/-- C7 (counterexample).  `"ISBN_ 5"` is accepted by the parser (the value
portion is trimmed to `"5"`), but formatting the parse result yields
`"ISBN_5"`, which is not the trimmed form of the input. -/
theorem parse_format_not_trim_inverse :
    parseIdentifier "ISBN_ 5" = .ok ⟨.ISBN, "5"⟩ ∧
    parsedIdToString ⟨.ISBN, "5"⟩ ≠ jsTrim "ISBN_ 5" := by
  decide

/-! ## Metadata resolver (C8) -/

theorem hexU_ne_slash (n : Nat) : hexU n ≠ '/' := by
  unfold hexU
  rcases Nat.lt_or_ge n 16 with h | h
  · interval_cases n <;> decide
  · rw [List.getD_eq_default _ _ h]
    decide

theorem pctByte_no_slash (b : Nat) : '/' ∉ pctByte b := by
  unfold pctByte
  intro hm
  simp only [List.mem_cons, List.not_mem_nil, or_false] at hm
  rcases hm with h | h | h
  · exact absurd h (by decide)
  · exact hexU_ne_slash _ h.symm
  · exact hexU_ne_slash _ h.symm

theorem encodeURIComponent_no_slash (s : String) :
    '/' ∉ (encodeURIComponent s).data := by
  show '/' ∉ s.data.flatMap fun c =>
    if uriUnreserved c then [c] else (utf8Bytes c).flatMap pctByte
  induction s.data with
  | nil => simp
  | cons c cs ih =>
    simp only [List.flatMap_cons, List.mem_append]
    rintro (h | h)
    · by_cases hu : uriUnreserved c
      · rw [if_pos hu] at h
        simp only [List.mem_singleton] at h
        subst h
        exact absurd hu (by decide)
      · rw [if_neg hu] at h
        simp only [List.mem_flatMap] at h
        obtain ⟨b, -, hb⟩ := h
        exact pctByte_no_slash b hb
    · exact ih h

/-- C8.  The metadata resolver is a total, deterministic function on parsed
identifiers: it is defined for every type in the enumerated set (so it never
raises), identical input yields the identical output string, for `DOI` it
builds a Crossref works URL around the percent-encoded value in which every
`/` has been encoded away, and for every other type it builds an OpenLibrary
bibkeys lookup URL containing `TYPE:value`. -/
theorem metadata_resolver_total :
    (∀ p q : ParsedIdentifier, p = q →
      metadataHandlers p.type p.value = metadataHandlers q.type q.value) ∧
    (∀ v, metadataHandlers .DOI v =
        "https://api.crossref.org/works/" ++ encodeURIComponent v ∧
      '/' ∉ (encodeURIComponent v).data) ∧
    (∀ (t : IdentifierType) (v : String), t ≠ .DOI → ∃ pre post,
      metadataHandlers t v = pre ++ (typeName t ++ ":" ++ v) ++ post) := by
  refine ⟨fun p q h => by rw [h],
    fun v => ⟨rfl, encodeURIComponent_no_slash v⟩, ?_⟩
  intro t v ht
  refine ⟨"https://openlibrary.org/api/books?bibkeys=", "&format=json", ?_⟩
  cases t with
  | DOI => exact absurd rfl ht
  | ISBN => rfl
  | OCLC => rfl
  | LCCN => rfl
  | OLID => rfl

theorem metadata_resolver_total_witness :
    metadataHandlers .DOI "10.1000/182" =
      "https://api.crossref.org/works/" ++ encodeURIComponent "10.1000/182" ∧
    (∃ pre post, metadataHandlers .ISBN "12345" =
      pre ++ (typeName .ISBN ++ ":" ++ "12345") ++ post) :=
  ⟨(metadata_resolver_total.2.1 "10.1000/182").1,
   metadata_resolver_total.2.2 .ISBN "12345" (by decide)⟩

end Moss
